import Mathlib

/-!
Shallow embedding of the payments-engine ledger core
(`src/accounting/mod.rs`, `src/accounting/transactions.rs`,
`src/accounting/executable_tx.rs`).

Monetary values (`rust_decimal::Decimal`, an exact decimal type closed
under the additions and subtractions the engine performs) are modelled
as `Rat`.  Client and transaction identifiers (`u16` / `u32`) are
modelled as `Nat`; the engine never does arithmetic on them, only
equality tests, so no wrap-around is reachable.  The two `HashMap`s of
the ledger are modelled as association lists with first-match lookup
and in-place replacement on insert.  Rust's in-place mutation through
`&mut Ledger` becomes explicit state passing: each `execute_tx` returns
the `Result` (as `Option TxError`, `none` = `Ok`) together with the
ledger as it stands at the corresponding `return` statement.
-/

namespace PaymentsEngine

/-- First-match lookup in an association list, modelling `HashMap::get`. -/
def mapLookup {α : Type} : List (Nat × α) → Nat → Option α
  | [], _ => none
  | (k, v) :: rest, key => if k = key then some v else mapLookup rest key

/-- Insert-or-replace in an association list, modelling `HashMap::insert`
(and `entry().or_insert` followed by mutation of the entry). -/
def mapInsert {α : Type} : List (Nat × α) → Nat → α → List (Nat × α)
  | [], key, v => [(key, v)]
  | (k, w) :: rest, key, v =>
      if k = key then (key, v) :: rest else (k, w) :: mapInsert rest key v

/-- `SubAccount` from `accounting/mod.rs`: a single named balance. -/
structure SubAccount where
  balance : Rat
deriving DecidableEq, Repr

/-- `SubAccount::new`. -/
def SubAccount.new : SubAccount := ⟨0⟩

/-- `UserAccount` from `accounting/mod.rs`. -/
structure UserAccount where
  client_id : Nat
  available : SubAccount
  held : SubAccount
  locked : Bool
deriving DecidableEq, Repr

/-- `UserAccount::new`: zero balances, unlocked. -/
def UserAccount.new (client_id : Nat) : UserAccount :=
  { client_id := client_id, available := SubAccount.new, held := SubAccount.new,
    locked := false }

/-- `UserAccount::total`. -/
def UserAccount.total (a : UserAccount) : Rat :=
  a.available.balance + a.held.balance

/-- `TxState` from `accounting/mod.rs`. -/
inductive TxState where
  | Resolved
  | Disputed
  | ChargedBack
deriving DecidableEq, Repr

/-- `DepositState` from `accounting/mod.rs`: the per-deposit dispute record. -/
structure DepositState where
  client_id : Nat
  tx_id : Nat
  amount : Rat
  state : TxState
deriving DecidableEq, Repr

/-- `DepositState::new`: a fresh record starts in state `Resolved`. -/
def DepositState.new (client_id tx_id : Nat) (amount : Rat) : DepositState :=
  { client_id := client_id, tx_id := tx_id, amount := amount,
    state := TxState.Resolved }

/-- `Ledger` from `accounting/mod.rs`. -/
structure Ledger where
  liabilities : SubAccount
  accounts : List (Nat × UserAccount)
  deposit_states : List (Nat × DepositState)
deriving DecidableEq, Repr

/-- `Ledger::new`. -/
def Ledger.new : Ledger :=
  { liabilities := SubAccount.new, accounts := [], deposit_states := [] }

/-- `TxError` from `accounting/executable_tx.rs`. -/
inductive TxError where
  | ClientAccountLocked
  | InsufficientFunds
  | ClientAccountNotFound
  | OriginTxNotFound
  | TxAlreadyDisputed
  | TxNotDisputed
deriving DecidableEq, Repr

/-- `make_tx` from `accounting/mod.rs`: debit `source`, credit
`destination` by the same `amount`; returns the updated pair. -/
def make_tx (source destination : SubAccount) (amount : Rat) :
    SubAccount × SubAccount :=
  (⟨source.balance - amount⟩, ⟨destination.balance + amount⟩)

/-- The `Deposit` transaction struct. -/
structure Deposit where
  client_id : Nat
  tx_id : Nat
  amount : Rat
deriving DecidableEq, Repr

/-- The `Withdrawal` transaction struct. -/
structure Withdrawal where
  client_id : Nat
  tx_id : Nat
  amount : Rat
deriving DecidableEq, Repr

/-- The `Dispute` transaction struct. -/
structure Dispute where
  client_id : Nat
  tx_id : Nat
deriving DecidableEq, Repr

/-- The `Resolve` transaction struct. -/
structure Resolve where
  client_id : Nat
  tx_id : Nat
deriving DecidableEq, Repr

/-- The `Chargeback` transaction struct. -/
structure Chargeback where
  client_id : Nat
  tx_id : Nat
deriving DecidableEq, Repr

/-- `Deposit::execute_tx`: gets-or-creates the account, transfers `amount`
from liabilities to its available sub-account, records a fresh dispute
record keyed by `tx_id`.  Never fails. -/
def Deposit.execute_tx (self : Deposit) (ledger : Ledger) :
    Option TxError × Ledger :=
  let client_account :=
    (mapLookup ledger.accounts self.client_id).getD (UserAccount.new self.client_id)
  let p := make_tx ledger.liabilities client_account.available self.amount
  let client_account := { client_account with available := p.2 }
  (none,
    { liabilities := p.1,
      accounts := mapInsert ledger.accounts self.client_id client_account,
      deposit_states := mapInsert ledger.deposit_states self.tx_id
        (DepositState.new self.client_id self.tx_id self.amount) })

/-- `Withdrawal::execute_tx`: account must exist, be unlocked, and have
`available >= amount`; then transfers `amount` from available to
liabilities.  No dispute record is written. -/
def Withdrawal.execute_tx (self : Withdrawal) (ledger : Ledger) :
    Option TxError × Ledger :=
  match mapLookup ledger.accounts self.client_id with
  | some client_account =>
      if client_account.locked then
        (some TxError.ClientAccountLocked, ledger)
      else if client_account.available.balance < self.amount then
        (some TxError.InsufficientFunds, ledger)
      else
        let p := make_tx client_account.available ledger.liabilities self.amount
        (none,
          { liabilities := p.2,
            accounts := mapInsert ledger.accounts self.client_id
              { client_account with available := p.1 },
            deposit_states := ledger.deposit_states })
  | none => (some TxError.ClientAccountNotFound, ledger)

/-- `Dispute::execute_tx`: account must exist and be unlocked; the record
keyed by `tx_id` must exist, match `(tx_id, client_id)`, and be
`Resolved`; then it becomes `Disputed` and the recorded amount moves
from available to held (unconditionally). -/
def Dispute.execute_tx (self : Dispute) (ledger : Ledger) :
    Option TxError × Ledger :=
  match mapLookup ledger.accounts self.client_id with
  | some client_account =>
      if client_account.locked then
        (some TxError.ClientAccountLocked, ledger)
      else
        match mapLookup ledger.deposit_states self.tx_id with
        | some deposit =>
            if deposit.tx_id ≠ self.tx_id ∨ deposit.client_id ≠ self.client_id then
              (some TxError.OriginTxNotFound, ledger)
            else if deposit.state ≠ TxState.Resolved then
              (some TxError.TxAlreadyDisputed, ledger)
            else
              let deposit := { deposit with state := TxState.Disputed }
              let p := make_tx client_account.available client_account.held
                deposit.amount
              let client_account :=
                { client_account with available := p.1, held := p.2 }
              (none,
                { liabilities := ledger.liabilities,
                  accounts := mapInsert ledger.accounts self.client_id
                    client_account,
                  deposit_states := mapInsert ledger.deposit_states self.tx_id
                    deposit })
        | none => (some TxError.OriginTxNotFound, ledger)
  | none => (some TxError.ClientAccountNotFound, ledger)

/-- `Resolve::execute_tx`: same account and ownership checks as `Dispute`;
the record must be `Disputed`; then it becomes `Resolved` and the
recorded amount moves from held back to available. -/
def Resolve.execute_tx (self : Resolve) (ledger : Ledger) :
    Option TxError × Ledger :=
  match mapLookup ledger.accounts self.client_id with
  | some client_account =>
      if client_account.locked then
        (some TxError.ClientAccountLocked, ledger)
      else
        match mapLookup ledger.deposit_states self.tx_id with
        | some deposit =>
            if deposit.tx_id ≠ self.tx_id ∨ deposit.client_id ≠ self.client_id then
              (some TxError.OriginTxNotFound, ledger)
            else if deposit.state ≠ TxState.Disputed then
              (some TxError.TxNotDisputed, ledger)
            else
              let deposit := { deposit with state := TxState.Resolved }
              let p := make_tx client_account.held client_account.available
                deposit.amount
              let client_account :=
                { client_account with held := p.1, available := p.2 }
              (none,
                { liabilities := ledger.liabilities,
                  accounts := mapInsert ledger.accounts self.client_id
                    client_account,
                  deposit_states := mapInsert ledger.deposit_states self.tx_id
                    deposit })
        | none => (some TxError.OriginTxNotFound, ledger)
  | none => (some TxError.ClientAccountNotFound, ledger)

/-- `Chargeback::execute_tx`: same account and ownership checks; the
record must be `Disputed`; then it becomes `ChargedBack`, the account is
locked, and the recorded amount moves from held to liabilities. -/
def Chargeback.execute_tx (self : Chargeback) (ledger : Ledger) :
    Option TxError × Ledger :=
  match mapLookup ledger.accounts self.client_id with
  | some client_account =>
      if client_account.locked then
        (some TxError.ClientAccountLocked, ledger)
      else
        match mapLookup ledger.deposit_states self.tx_id with
        | some deposit =>
            if deposit.tx_id ≠ self.tx_id ∨ deposit.client_id ≠ self.client_id then
              (some TxError.OriginTxNotFound, ledger)
            else if deposit.state ≠ TxState.Disputed then
              (some TxError.TxNotDisputed, ledger)
            else
              let deposit := { deposit with state := TxState.ChargedBack }
              let client_account := { client_account with locked := true }
              let p := make_tx client_account.held ledger.liabilities
                deposit.amount
              let client_account := { client_account with held := p.1 }
              (none,
                { liabilities := p.2,
                  accounts := mapInsert ledger.accounts self.client_id
                    client_account,
                  deposit_states := mapInsert ledger.deposit_states self.tx_id
                    deposit })
        | none => (some TxError.OriginTxNotFound, ledger)
  | none => (some TxError.ClientAccountNotFound, ledger)

/-- The closed `Transaction` enum. -/
inductive Transaction where
  | Deposit (d : Deposit)
  | Withdrawal (w : Withdrawal)
  | Dispute (d : Dispute)
  | Resolve (r : Resolve)
  | Chargeback (c : Chargeback)
deriving DecidableEq, Repr

/-- `Ledger::execute`: dispatch to the variant's `execute_tx`. -/
def Ledger.execute (ledger : Ledger) (tx : Transaction) :
    Option TxError × Ledger :=
  match tx with
  | Transaction.Deposit d => d.execute_tx ledger
  | Transaction.Withdrawal w => w.execute_tx ledger
  | Transaction.Dispute d => d.execute_tx ledger
  | Transaction.Resolve r => r.execute_tx ledger
  | Transaction.Chargeback c => c.execute_tx ledger

/-- Sequential application of a transaction list, in arrival order, as the
single consumer does; failed transactions leave the state as the code
left it and processing continues. -/
def Ledger.replay (ledger : Ledger) : List Transaction → Ledger
  | [] => ledger
  | t :: rest => Ledger.replay (ledger.execute t).2 rest

/-- Sum of `available + held` over all accounts of the map. -/
def accountsTotal : List (Nat × UserAccount) → Rat
  | [] => 0
  | p :: rest => p.2.total + accountsTotal rest

/-- The contribution of an optional account to `accountsTotal`. -/
def optTotal : Option UserAccount → Rat
  | some a => a.total
  | none => 0

/-- The conservation law: liabilities plus the sum of all client totals
is exactly `0`. -/
def conserved (l : Ledger) : Prop :=
  l.liabilities.balance + accountsTotal l.accounts = 0

theorem mapLookup_mapInsert {α : Type} (m : List (Nat × α)) (k : Nat) (v : α)
    (key : Nat) :
    mapLookup (mapInsert m k v) key =
      if k = key then some v else mapLookup m key := by
  induction m with
  | nil => simp [mapInsert, mapLookup]
  | cons hd tl ih =>
      obtain ⟨kh, w⟩ := hd
      by_cases h : kh = k
      · subst h
        by_cases hk : kh = key
        · subst hk; simp [mapInsert, mapLookup]
        · simp [mapInsert, mapLookup, hk]
      · by_cases hk : kh = key
        · subst hk
          have hkne : ¬k = kh := fun he => h he.symm
          simp [mapInsert, mapLookup, h, hkne]
        · simp [mapInsert, mapLookup, h, hk, ih]

theorem accountsTotal_mapInsert (m : List (Nat × UserAccount)) (k : Nat)
    (v : UserAccount) :
    accountsTotal (mapInsert m k v) =
      accountsTotal m + v.total - optTotal (mapLookup m k) := by
  induction m with
  | nil => simp [mapInsert, accountsTotal, mapLookup, optTotal]
  | cons hd tl ih =>
      obtain ⟨kh, w⟩ := hd
      by_cases h : kh = k
      · simp [mapInsert, h, accountsTotal, mapLookup, optTotal]
        ring
      · simp [mapInsert, h, accountsTotal, mapLookup, optTotal, ih]
        ring

theorem conserved_step (l : Ledger) (t : Transaction) (h : conserved l) :
    conserved (l.execute t).2 := by
  cases t with
  | Deposit d =>
      cases hl : mapLookup l.accounts d.client_id with
      | none =>
          simp [Ledger.execute, Deposit.execute_tx, conserved, hl, make_tx,
            accountsTotal_mapInsert, optTotal, UserAccount.new, SubAccount.new,
            UserAccount.total] at h ⊢
          linarith
      | some acc =>
          simp [Ledger.execute, Deposit.execute_tx, conserved, hl, make_tx,
            accountsTotal_mapInsert, optTotal, UserAccount.total] at h ⊢
          linarith
  | Withdrawal w =>
      cases hl : mapLookup l.accounts w.client_id with
      | none => simpa [Ledger.execute, Withdrawal.execute_tx, hl] using h
      | some acc =>
          by_cases hlk : acc.locked
          · simpa [Ledger.execute, Withdrawal.execute_tx, hl, hlk] using h
          · by_cases hav : acc.available.balance < w.amount
            · simpa [Ledger.execute, Withdrawal.execute_tx, hl, hlk, hav] using h
            · simp [Ledger.execute, Withdrawal.execute_tx, conserved, hl, hlk,
                hav, make_tx, accountsTotal_mapInsert, optTotal,
                UserAccount.total] at h ⊢
              linarith
  | Dispute d =>
      cases hl : mapLookup l.accounts d.client_id with
      | none => simpa [Ledger.execute, Dispute.execute_tx, hl] using h
      | some acc =>
          by_cases hlk : acc.locked
          · simpa [Ledger.execute, Dispute.execute_tx, hl, hlk] using h
          · cases hd : mapLookup l.deposit_states d.tx_id with
            | none => simpa [Ledger.execute, Dispute.execute_tx, hl, hlk, hd] using h
            | some dep =>
                by_cases hown : dep.tx_id ≠ d.tx_id ∨ dep.client_id ≠ d.client_id
                · simpa [Ledger.execute, Dispute.execute_tx, hl, hlk, hd, hown]
                    using h
                · by_cases hst : dep.state ≠ TxState.Resolved
                  · simpa [Ledger.execute, Dispute.execute_tx, hl, hlk, hd,
                      hown, hst] using h
                  · simp [Ledger.execute, Dispute.execute_tx, conserved, hl,
                      hlk, hd, hown, hst, make_tx, accountsTotal_mapInsert,
                      optTotal, UserAccount.total] at h ⊢
                    linarith
  | Resolve r =>
      cases hl : mapLookup l.accounts r.client_id with
      | none => simpa [Ledger.execute, Resolve.execute_tx, hl] using h
      | some acc =>
          by_cases hlk : acc.locked
          · simpa [Ledger.execute, Resolve.execute_tx, hl, hlk] using h
          · cases hd : mapLookup l.deposit_states r.tx_id with
            | none => simpa [Ledger.execute, Resolve.execute_tx, hl, hlk, hd] using h
            | some dep =>
                by_cases hown : dep.tx_id ≠ r.tx_id ∨ dep.client_id ≠ r.client_id
                · simpa [Ledger.execute, Resolve.execute_tx, hl, hlk, hd, hown]
                    using h
                · by_cases hst : dep.state ≠ TxState.Disputed
                  · simpa [Ledger.execute, Resolve.execute_tx, hl, hlk, hd,
                      hown, hst] using h
                  · simp [Ledger.execute, Resolve.execute_tx, conserved, hl,
                      hlk, hd, hown, hst, make_tx, accountsTotal_mapInsert,
                      optTotal, UserAccount.total] at h ⊢
                    linarith
  | Chargeback c =>
      cases hl : mapLookup l.accounts c.client_id with
      | none => simpa [Ledger.execute, Chargeback.execute_tx, hl] using h
      | some acc =>
          by_cases hlk : acc.locked
          · simpa [Ledger.execute, Chargeback.execute_tx, hl, hlk] using h
          · cases hd : mapLookup l.deposit_states c.tx_id with
            | none => simpa [Ledger.execute, Chargeback.execute_tx, hl, hlk, hd] using h
            | some dep =>
                by_cases hown : dep.tx_id ≠ c.tx_id ∨ dep.client_id ≠ c.client_id
                · simpa [Ledger.execute, Chargeback.execute_tx, hl, hlk, hd,
                    hown] using h
                · by_cases hst : dep.state ≠ TxState.Disputed
                  · simpa [Ledger.execute, Chargeback.execute_tx, hl, hlk, hd,
                      hown, hst] using h
                  · simp [Ledger.execute, Chargeback.execute_tx, conserved, hl,
                      hlk, hd, hown, hst, make_tx, accountsTotal_mapInsert,
                      optTotal, UserAccount.total] at h ⊢
                    linarith

theorem conserved_new : conserved Ledger.new := by
  simp [conserved, Ledger.new, SubAccount.new, accountsTotal]

theorem conserved_replay (ts : List Transaction) :
    ∀ l : Ledger, conserved l → conserved (l.replay ts) := by
  induction ts with
  | nil => intro l hl; simpa [Ledger.replay] using hl
  | cons t rest ih =>
      intro l hl
      exact ih _ (conserved_step l t hl)

/-- C1: every ledger state reachable from the empty ledger by a sequence
of `execute` calls satisfies `liabilities.balance + Σ (available + held)
= 0`, and every single `execute` call (in particular every successful
transaction) preserves this conservation law. -/
theorem conservation_law :
    (∀ ts : List Transaction, conserved (Ledger.new.replay ts)) ∧
    ∀ (l : Ledger) (t : Transaction), conserved l → conserved (l.execute t).2 :=
  ⟨fun ts => conserved_replay ts Ledger.new conserved_new, conserved_step⟩

/-- C1 witness: the preservation half applied at a concrete conserved
state and deposit. -/
theorem conservation_law_witness :
    conserved (Ledger.new.execute (Transaction.Deposit ⟨1, 1, 5⟩)).2 :=
  conservation_law.2 Ledger.new (Transaction.Deposit ⟨1, 1, 5⟩)
    (by simp [conserved, Ledger.new, SubAccount.new, accountsTotal])

/-- C3: whenever `execute` returns an error, the ledger after the call is
exactly the ledger before it — accounts, lock flags, liabilities and
dispute records included; every validation check runs before any
mutation. -/
theorem execute_error_atomic (l : Ledger) (t : Transaction) (e : TxError)
    (h : (l.execute t).1 = some e) : (l.execute t).2 = l := by
  cases t with
  | Deposit d => simp [Ledger.execute, Deposit.execute_tx] at h
  | Withdrawal w =>
      cases hl : mapLookup l.accounts w.client_id with
      | none => simp [Ledger.execute, Withdrawal.execute_tx, hl]
      | some acc =>
          by_cases hlk : acc.locked
          · simp [Ledger.execute, Withdrawal.execute_tx, hl, hlk]
          · by_cases hav : acc.available.balance < w.amount
            · simp [Ledger.execute, Withdrawal.execute_tx, hl, hlk, hav]
            · simp [Ledger.execute, Withdrawal.execute_tx, hl, hlk, hav] at h
  | Dispute d =>
      cases hl : mapLookup l.accounts d.client_id with
      | none => simp [Ledger.execute, Dispute.execute_tx, hl]
      | some acc =>
          by_cases hlk : acc.locked
          · simp [Ledger.execute, Dispute.execute_tx, hl, hlk]
          · cases hd : mapLookup l.deposit_states d.tx_id with
            | none => simp [Ledger.execute, Dispute.execute_tx, hl, hlk, hd]
            | some dep =>
                by_cases hown : dep.tx_id ≠ d.tx_id ∨ dep.client_id ≠ d.client_id
                · simp [Ledger.execute, Dispute.execute_tx, hl, hlk, hd, hown]
                · by_cases hst : dep.state ≠ TxState.Resolved
                  · simp [Ledger.execute, Dispute.execute_tx, hl, hlk, hd,
                      hown, hst]
                  · simp [Ledger.execute, Dispute.execute_tx, hl, hlk, hd,
                      hown, hst] at h
  | Resolve r =>
      cases hl : mapLookup l.accounts r.client_id with
      | none => simp [Ledger.execute, Resolve.execute_tx, hl]
      | some acc =>
          by_cases hlk : acc.locked
          · simp [Ledger.execute, Resolve.execute_tx, hl, hlk]
          · cases hd : mapLookup l.deposit_states r.tx_id with
            | none => simp [Ledger.execute, Resolve.execute_tx, hl, hlk, hd]
            | some dep =>
                by_cases hown : dep.tx_id ≠ r.tx_id ∨ dep.client_id ≠ r.client_id
                · simp [Ledger.execute, Resolve.execute_tx, hl, hlk, hd, hown]
                · by_cases hst : dep.state ≠ TxState.Disputed
                  · simp [Ledger.execute, Resolve.execute_tx, hl, hlk, hd,
                      hown, hst]
                  · simp [Ledger.execute, Resolve.execute_tx, hl, hlk, hd,
                      hown, hst] at h
  | Chargeback c =>
      cases hl : mapLookup l.accounts c.client_id with
      | none => simp [Ledger.execute, Chargeback.execute_tx, hl]
      | some acc =>
          by_cases hlk : acc.locked
          · simp [Ledger.execute, Chargeback.execute_tx, hl, hlk]
          · cases hd : mapLookup l.deposit_states c.tx_id with
            | none => simp [Ledger.execute, Chargeback.execute_tx, hl, hlk, hd]
            | some dep =>
                by_cases hown : dep.tx_id ≠ c.tx_id ∨ dep.client_id ≠ c.client_id
                · simp [Ledger.execute, Chargeback.execute_tx, hl, hlk, hd, hown]
                · by_cases hst : dep.state ≠ TxState.Disputed
                  · simp [Ledger.execute, Chargeback.execute_tx, hl, hlk, hd,
                      hown, hst]
                  · simp [Ledger.execute, Chargeback.execute_tx, hl, hlk, hd,
                      hown, hst] at h

/-- C3 witness: a withdrawal against the empty ledger fails with
`ClientAccountNotFound` and leaves the ledger untouched. -/
theorem execute_error_atomic_witness :
    (Ledger.new.execute (Transaction.Withdrawal ⟨1, 1, 5⟩)).2 = Ledger.new :=
  execute_error_atomic Ledger.new (Transaction.Withdrawal ⟨1, 1, 5⟩)
    TxError.ClientAccountNotFound rfl

/-- C4: a deposit always succeeds (locked accounts included); afterwards
the client's account exists — created with zero balances and unlocked if
it did not — with `available` increased by `amount`, liabilities is
decreased by `amount`, and a dispute record for `tx_id` with owner
`client_id`, the deposited amount and state `Resolved` is stored. -/
theorem deposit_contract (l : Ledger) (d : Deposit) :
    (d.execute_tx l).1 = none ∧
    mapLookup (d.execute_tx l).2.accounts d.client_id =
      some { (mapLookup l.accounts d.client_id).getD (UserAccount.new d.client_id) with
             available :=
               ⟨((mapLookup l.accounts d.client_id).getD
                   (UserAccount.new d.client_id)).available.balance + d.amount⟩ } ∧
    (d.execute_tx l).2.liabilities.balance = l.liabilities.balance - d.amount ∧
    mapLookup (d.execute_tx l).2.deposit_states d.tx_id =
      some { client_id := d.client_id, tx_id := d.tx_id, amount := d.amount,
             state := TxState.Resolved } := by
  refine ⟨rfl, ?_, rfl, ?_⟩
  · simp [Deposit.execute_tx, mapLookup_mapInsert, make_tx]
  · simp [Deposit.execute_tx, mapLookup_mapInsert, DepositState.new]

/-- C5: a withdrawal fails with `ClientAccountNotFound` when the account
is missing, else with `ClientAccountLocked` when locked, else with
`InsufficientFunds` when `available < amount`, each failure leaving the
ledger unchanged; otherwise it succeeds, decreasing `available` by
`amount`, increasing liabilities by `amount`, and writing no dispute
record. -/
theorem withdrawal_contract (l : Ledger) (w : Withdrawal) :
    match mapLookup l.accounts w.client_id with
    | none => w.execute_tx l = (some TxError.ClientAccountNotFound, l)
    | some acc =>
        if acc.locked then
          w.execute_tx l = (some TxError.ClientAccountLocked, l)
        else if acc.available.balance < w.amount then
          w.execute_tx l = (some TxError.InsufficientFunds, l)
        else
          (w.execute_tx l).1 = none ∧
          mapLookup (w.execute_tx l).2.accounts w.client_id =
            some { acc with available := ⟨acc.available.balance - w.amount⟩ } ∧
          (w.execute_tx l).2.liabilities.balance =
            l.liabilities.balance + w.amount ∧
          (w.execute_tx l).2.deposit_states = l.deposit_states := by
  cases hl : mapLookup l.accounts w.client_id with
  | none => simp [Withdrawal.execute_tx, hl]
  | some acc =>
      by_cases hlk : acc.locked
      · simp [Withdrawal.execute_tx, hl, hlk]
      · by_cases hav : acc.available.balance < w.amount
        · simp [Withdrawal.execute_tx, hl, hlk, hav]
        · simp [Withdrawal.execute_tx, hl, hlk, hav, make_tx,
            mapLookup_mapInsert]

/-- A concrete state: client 1 deposited 50 under tx 1 and then withdrew
45, leaving `available = 5` while the recorded deposit amount is 50. -/
def disputeScenario : Ledger :=
  Ledger.new.replay
    [Transaction.Deposit ⟨1, 1, 50⟩, Transaction.Withdrawal ⟨1, 2, 45⟩]

/-- A concrete state: client 1 deposited 50 under tx 1 and disputed it,
so the record for tx 1 is in state `Disputed`. -/
def overwriteScenario : Ledger :=
  Ledger.new.replay
    [Transaction.Deposit ⟨1, 1, 50⟩, Transaction.Dispute ⟨1, 1⟩]

/-- A concrete state: client 1 deposited 50 under tx 1, disputed it and
charged it back, so the record for tx 1 is `ChargedBack` and the account
of client 1 is locked. -/
def chargebackScenario : Ledger :=
  Ledger.new.replay
    [Transaction.Deposit ⟨1, 1, 50⟩, Transaction.Dispute ⟨1, 1⟩,
     Transaction.Chargeback ⟨1, 1⟩]

/-- C6: when the issuing client's account exists and is unlocked and the
record for `t` is owned by that client and `Resolved`, a dispute succeeds
with no check of `available` against the recorded amount: the record
becomes `Disputed`, `available` drops by the recorded deposit amount
(possibly below zero), `held` rises by the same amount, and the
account's total and the liabilities balance are unchanged. -/
theorem dispute_unconditional (l : Ledger) (c t : Nat) (acc : UserAccount)
    (dep : DepositState)
    (hacc : mapLookup l.accounts c = some acc) (hlk : acc.locked = false)
    (hdep : mapLookup l.deposit_states t = some dep)
    (htx : dep.tx_id = t) (hcl : dep.client_id = c)
    (hst : dep.state = TxState.Resolved) :
    (Dispute.execute_tx ⟨c, t⟩ l).1 = none ∧
    mapLookup (Dispute.execute_tx ⟨c, t⟩ l).2.accounts c =
      some { acc with
              available := ⟨acc.available.balance - dep.amount⟩,
              held := ⟨acc.held.balance + dep.amount⟩ } ∧
    mapLookup (Dispute.execute_tx ⟨c, t⟩ l).2.deposit_states t =
      some { dep with state := TxState.Disputed } ∧
    (acc.available.balance - dep.amount) + (acc.held.balance + dep.amount) =
      acc.total ∧
    (Dispute.execute_tx ⟨c, t⟩ l).2.liabilities = l.liabilities := by
  refine ⟨?_, ?_, ?_, ?_, ?_⟩ <;>
    simp [Dispute.execute_tx, hacc, hlk, hdep, htx, hcl, hst, make_tx,
      mapLookup_mapInsert, UserAccount.total]

/-- C6 witness: in `disputeScenario` the available balance 5 is below
the recorded amount 50, yet the dispute succeeds. -/
theorem dispute_unconditional_witness :
    ((⟨1, ⟨5⟩, ⟨0⟩, false⟩ : UserAccount).available.balance <
        (⟨1, 1, 50, TxState.Resolved⟩ : DepositState).amount) ∧
    (Dispute.execute_tx ⟨1, 1⟩ disputeScenario).1 = none ∧
    mapLookup (Dispute.execute_tx ⟨1, 1⟩ disputeScenario).2.accounts 1 =
      some ⟨1, ⟨5 - 50⟩, ⟨0 + 50⟩, false⟩ :=
  ⟨by norm_num,
   (dispute_unconditional disputeScenario 1 1 ⟨1, ⟨5⟩, ⟨0⟩, false⟩
      ⟨1, 1, 50, TxState.Resolved⟩ (by
        simp [disputeScenario, Ledger.replay, Ledger.execute,
          Deposit.execute_tx, Withdrawal.execute_tx, Ledger.new,
          SubAccount.new, UserAccount.new, make_tx, mapLookup, mapInsert]
        norm_num) rfl (by
        simp [disputeScenario, Ledger.replay, Ledger.execute,
          Deposit.execute_tx, Withdrawal.execute_tx, Ledger.new,
          SubAccount.new, UserAccount.new, make_tx, mapLookup, mapInsert,
          DepositState.new]) rfl rfl rfl).1,
   (dispute_unconditional disputeScenario 1 1 ⟨1, ⟨5⟩, ⟨0⟩, false⟩
      ⟨1, 1, 50, TxState.Resolved⟩ (by
        simp [disputeScenario, Ledger.replay, Ledger.execute,
          Deposit.execute_tx, Withdrawal.execute_tx, Ledger.new,
          SubAccount.new, UserAccount.new, make_tx, mapLookup, mapInsert]
        norm_num) rfl (by
        simp [disputeScenario, Ledger.replay, Ledger.execute,
          Deposit.execute_tx, Withdrawal.execute_tx, Ledger.new,
          SubAccount.new, UserAccount.new, make_tx, mapLookup, mapInsert,
          DepositState.new]) rfl rfl rfl).2.1⟩

/-- C8: a deposit whose `tx_id` already has a dispute record — whatever
lifecycle state that record is in — succeeds and silently replaces the
record by a fresh one for the new client and amount in state
`Resolved`. -/
theorem deposit_overwrites (l : Ledger) (d : Deposit) (old : DepositState)
    (h : mapLookup l.deposit_states d.tx_id = some old) :
    (d.execute_tx l).1 = none ∧
    mapLookup (d.execute_tx l).2.deposit_states d.tx_id =
      some { client_id := d.client_id, tx_id := d.tx_id, amount := d.amount,
             state := TxState.Resolved } :=
  ⟨rfl, by simp [Deposit.execute_tx, mapLookup_mapInsert, DepositState.new]⟩

/-- C8 witness: overwriting a record that is currently `Disputed`. -/
theorem deposit_overwrites_witness :
    (Deposit.execute_tx ⟨2, 1, 30⟩ overwriteScenario).1 = none ∧
    mapLookup (Deposit.execute_tx ⟨2, 1, 30⟩
        overwriteScenario).2.deposit_states 1 =
      some { client_id := 2, tx_id := 1, amount := 30,
             state := TxState.Resolved } :=
  deposit_overwrites overwriteScenario ⟨2, 1, 30⟩ ⟨1, 1, 50, TxState.Disputed⟩
    (by
      simp [overwriteScenario, Ledger.replay, Ledger.execute,
        Deposit.execute_tx, Dispute.execute_tx, Ledger.new, SubAccount.new,
        UserAccount.new, make_tx, mapLookup, mapInsert, DepositState.new])

/-- C10: when the issuing client's account exists and is locked, Dispute,
Resolve and Chargeback all fail with `ClientAccountLocked` (leaving the
ledger unchanged), for every `tx_id` whatsoever: the lock check precedes
any dispute-record lookup. -/
theorem lock_check_precedence (l : Ledger) (c t : Nat) (acc : UserAccount)
    (hacc : mapLookup l.accounts c = some acc) (hlk : acc.locked = true) :
    Dispute.execute_tx ⟨c, t⟩ l = (some TxError.ClientAccountLocked, l) ∧
    Resolve.execute_tx ⟨c, t⟩ l = (some TxError.ClientAccountLocked, l) ∧
    Chargeback.execute_tx ⟨c, t⟩ l = (some TxError.ClientAccountLocked, l) := by
  refine ⟨?_, ?_, ?_⟩ <;>
    simp [Dispute.execute_tx, Resolve.execute_tx, Chargeback.execute_tx,
      hacc, hlk]

/-- C10 witness: after `chargebackScenario` client 1 is locked, and a
dispute naming a `tx_id` with no record at all still fails with
`ClientAccountLocked`. -/
theorem lock_check_precedence_witness :
    Dispute.execute_tx ⟨1, 99⟩ chargebackScenario =
      (some TxError.ClientAccountLocked, chargebackScenario) :=
  (lock_check_precedence chargebackScenario 1 99 ⟨1, ⟨0⟩, ⟨0⟩, true⟩
    (by
      simp [chargebackScenario, Ledger.replay, Ledger.execute,
        Deposit.execute_tx, Dispute.execute_tx, Chargeback.execute_tx,
        Ledger.new, SubAccount.new, UserAccount.new, make_tx, mapLookup,
        mapInsert, DepositState.new]) rfl).1

/-- The account map holds a locked account for client `c`. -/
def accLocked (m : List (Nat × UserAccount)) (c : Nat) : Prop :=
  ∃ a, mapLookup m c = some a ∧ a.locked = true

/-- The ledger holds a locked account for client `c`. -/
def lockedIn (l : Ledger) (c : Nat) : Prop :=
  accLocked l.accounts c

theorem accLocked_insert (m : List (Nat × UserAccount)) (k : Nat)
    (v : UserAccount) (c : Nat) :
    accLocked (mapInsert m k v) c ↔
      if k = c then v.locked = true else accLocked m c := by
  by_cases h : k = c <;> simp [accLocked, mapLookup_mapInsert, h]

/-- C9: the lock flag is monotone under every transaction, succeeding or
failing — a locked account stays locked — and it is only ever set by a
successful `Chargeback` issued for that very client; no operation clears
it. -/
theorem locked_monotone (l : Ledger) (t : Transaction) (c : Nat) :
    (lockedIn l c → lockedIn (l.execute t).2 c) ∧
    (lockedIn (l.execute t).2 c →
      lockedIn l c ∨
        ∃ txid, t = Transaction.Chargeback ⟨c, txid⟩ ∧
          (l.execute t).1 = none) := by
  cases t with
  | Deposit d =>
      cases hl : mapLookup l.accounts d.client_id with
      | none =>
          by_cases hc : d.client_id = c
          · subst hc
            constructor
            · rintro ⟨a, ha, hla⟩
              rw [hl] at ha
              exact absurd ha (by simp)
            · intro hlc
              rw [lockedIn, Ledger.execute] at hlc
              simp [Deposit.execute_tx, hl, accLocked_insert, make_tx,
                UserAccount.new] at hlc
          · constructor
            · intro hlc
              rw [lockedIn, Ledger.execute]
              simp [Deposit.execute_tx, accLocked_insert, hc]
              exact hlc
            · intro hlc
              rw [lockedIn, Ledger.execute] at hlc
              simp [Deposit.execute_tx, accLocked_insert, hc] at hlc
              exact Or.inl hlc
      | some acc =>
          by_cases hc : d.client_id = c
          · subst hc
            constructor
            · rintro ⟨a, ha, hla⟩
              rw [hl] at ha
              obtain rfl : acc = a := Option.some.inj ha
              rw [lockedIn, Ledger.execute]
              simp [Deposit.execute_tx, hl, accLocked_insert, make_tx]
              exact hla
            · intro hlc
              rw [lockedIn, Ledger.execute] at hlc
              simp [Deposit.execute_tx, hl, accLocked_insert, make_tx] at hlc
              exact Or.inl ⟨acc, hl, hlc⟩
          · constructor
            · intro hlc
              rw [lockedIn, Ledger.execute]
              simp [Deposit.execute_tx, accLocked_insert, hc]
              exact hlc
            · intro hlc
              rw [lockedIn, Ledger.execute] at hlc
              simp [Deposit.execute_tx, accLocked_insert, hc] at hlc
              exact Or.inl hlc
  | Withdrawal w =>
      cases hl : mapLookup l.accounts w.client_id with
      | none =>
          simp [Ledger.execute, Withdrawal.execute_tx, hl]
      | some acc =>
          by_cases hlk : acc.locked
          · simp [Ledger.execute, Withdrawal.execute_tx, hl, hlk]
          · by_cases hav : acc.available.balance < w.amount
            · simp [Ledger.execute, Withdrawal.execute_tx, hl, hlk, hav]
            · by_cases hc : w.client_id = c
              · subst hc
                constructor
                · rintro ⟨a, ha, hla⟩
                  rw [hl] at ha
                  obtain rfl : acc = a := Option.some.inj ha
                  exact absurd hla (by simp [hlk])
                · intro hlc
                  rw [lockedIn, Ledger.execute] at hlc
                  simp [Withdrawal.execute_tx, hl, hlk, hav, make_tx,
                    accLocked_insert] at hlc
              · constructor
                · intro hlc
                  rw [lockedIn, Ledger.execute]
                  simp [Withdrawal.execute_tx, hl, hlk, hav, make_tx,
                    accLocked_insert, hc]
                  exact hlc
                · intro hlc
                  rw [lockedIn, Ledger.execute] at hlc
                  simp [Withdrawal.execute_tx, hl, hlk, hav, make_tx,
                    accLocked_insert, hc] at hlc
                  exact Or.inl hlc
  | Dispute d =>
      cases hl : mapLookup l.accounts d.client_id with
      | none => simp [Ledger.execute, Dispute.execute_tx, hl]
      | some acc =>
          by_cases hlk : acc.locked
          · simp [Ledger.execute, Dispute.execute_tx, hl, hlk]
          · cases hd : mapLookup l.deposit_states d.tx_id with
            | none => simp [Ledger.execute, Dispute.execute_tx, hl, hlk, hd]
            | some dep =>
                by_cases hown : dep.tx_id ≠ d.tx_id ∨ dep.client_id ≠ d.client_id
                · simp [Ledger.execute, Dispute.execute_tx, hl, hlk, hd, hown]
                · by_cases hst : dep.state ≠ TxState.Resolved
                  · simp [Ledger.execute, Dispute.execute_tx, hl, hlk, hd,
                      hown, hst]
                  · by_cases hc : d.client_id = c
                    · subst hc
                      constructor
                      · rintro ⟨a, ha, hla⟩
                        rw [hl] at ha
                        obtain rfl : acc = a := Option.some.inj ha
                        exact absurd hla (by simp [hlk])
                      · intro hlc
                        rw [lockedIn, Ledger.execute] at hlc
                        simp [Dispute.execute_tx, hl, hlk, hd, hown, hst,
                          make_tx, accLocked_insert] at hlc
                    · constructor
                      · intro hlc
                        rw [lockedIn, Ledger.execute]
                        simp [Dispute.execute_tx, hl, hlk, hd, hown, hst,
                          make_tx, accLocked_insert, hc]
                        exact hlc
                      · intro hlc
                        rw [lockedIn, Ledger.execute] at hlc
                        simp [Dispute.execute_tx, hl, hlk, hd, hown, hst,
                          make_tx, accLocked_insert, hc] at hlc
                        exact Or.inl hlc
  | Resolve r =>
      cases hl : mapLookup l.accounts r.client_id with
      | none => simp [Ledger.execute, Resolve.execute_tx, hl]
      | some acc =>
          by_cases hlk : acc.locked
          · simp [Ledger.execute, Resolve.execute_tx, hl, hlk]
          · cases hd : mapLookup l.deposit_states r.tx_id with
            | none => simp [Ledger.execute, Resolve.execute_tx, hl, hlk, hd]
            | some dep =>
                by_cases hown : dep.tx_id ≠ r.tx_id ∨ dep.client_id ≠ r.client_id
                · simp [Ledger.execute, Resolve.execute_tx, hl, hlk, hd, hown]
                · by_cases hst : dep.state ≠ TxState.Disputed
                  · simp [Ledger.execute, Resolve.execute_tx, hl, hlk, hd,
                      hown, hst]
                  · by_cases hc : r.client_id = c
                    · subst hc
                      constructor
                      · rintro ⟨a, ha, hla⟩
                        rw [hl] at ha
                        obtain rfl : acc = a := Option.some.inj ha
                        exact absurd hla (by simp [hlk])
                      · intro hlc
                        rw [lockedIn, Ledger.execute] at hlc
                        simp [Resolve.execute_tx, hl, hlk, hd, hown, hst,
                          make_tx, accLocked_insert] at hlc
                    · constructor
                      · intro hlc
                        rw [lockedIn, Ledger.execute]
                        simp [Resolve.execute_tx, hl, hlk, hd, hown, hst,
                          make_tx, accLocked_insert, hc]
                        exact hlc
                      · intro hlc
                        rw [lockedIn, Ledger.execute] at hlc
                        simp [Resolve.execute_tx, hl, hlk, hd, hown, hst,
                          make_tx, accLocked_insert, hc] at hlc
                        exact Or.inl hlc
  | Chargeback cb =>
      cases hl : mapLookup l.accounts cb.client_id with
      | none => simp [Ledger.execute, Chargeback.execute_tx, hl]
      | some acc =>
          by_cases hlk : acc.locked
          · simp [Ledger.execute, Chargeback.execute_tx, hl, hlk]
          · cases hd : mapLookup l.deposit_states cb.tx_id with
            | none => simp [Ledger.execute, Chargeback.execute_tx, hl, hlk, hd]
            | some dep =>
                by_cases hown : dep.tx_id ≠ cb.tx_id ∨ dep.client_id ≠ cb.client_id
                · simp [Ledger.execute, Chargeback.execute_tx, hl, hlk, hd,
                    hown]
                · by_cases hst : dep.state ≠ TxState.Disputed
                  · simp [Ledger.execute, Chargeback.execute_tx, hl, hlk, hd,
                      hown, hst]
                  · by_cases hc : cb.client_id = c
                    · subst hc
                      constructor
                      · intro hlc
                        rw [lockedIn, Ledger.execute]
                        simp [Chargeback.execute_tx, hl, hlk, hd, hown, hst,
                          make_tx, accLocked_insert]
                      · intro hlc
                        refine Or.inr ⟨cb.tx_id, rfl, ?_⟩
                        simp [Ledger.execute, Chargeback.execute_tx, hl,
                          hlk, hd, hown, hst, make_tx]
                    · constructor
                      · intro hlc
                        rw [lockedIn, Ledger.execute]
                        simp [Chargeback.execute_tx, hl, hlk, hd, hown, hst,
                          make_tx, accLocked_insert, hc]
                        exact hlc
                      · intro hlc
                        rw [lockedIn, Ledger.execute] at hlc
                        simp [Chargeback.execute_tx, hl, hlk, hd, hown, hst,
                          make_tx, accLocked_insert, hc] at hlc
                        exact Or.inl hlc

/-- C9 witness: after `chargebackScenario` client 1 is locked, and a
further deposit to the locked account keeps it locked. -/
theorem locked_monotone_witness :
    lockedIn (chargebackScenario.execute (Transaction.Deposit ⟨1, 2, 5⟩)).2 1 :=
  (locked_monotone chargebackScenario (Transaction.Deposit ⟨1, 2, 5⟩) 1).1
    ⟨⟨1, ⟨0⟩, ⟨0⟩, true⟩, by
      simp [chargebackScenario, Ledger.replay, Ledger.execute,
        Deposit.execute_tx, Dispute.execute_tx, Chargeback.execute_tx,
        Ledger.new, SubAccount.new, UserAccount.new, make_tx, mapLookup,
        mapInsert, DepositState.new], rfl⟩

/-- A concrete state: client 1 deposited, disputed and charged back tx 1
(so account 1 is locked), then client 2 deposited 30 under tx 2. -/
def ownershipScenario : Ledger :=
  Ledger.new.replay
    [Transaction.Deposit ⟨1, 1, 50⟩, Transaction.Dispute ⟨1, 1⟩,
     Transaction.Chargeback ⟨1, 1⟩, Transaction.Deposit ⟨2, 2, 30⟩]

/-- A concrete state: client 1 deposited 50 under tx 1 and client 2
deposited 30 under tx 2; both accounts unlocked. -/
def mismatchScenario : Ledger :=
  Ledger.new.replay
    [Transaction.Deposit ⟨1, 1, 50⟩, Transaction.Deposit ⟨2, 2, 30⟩]

/-- C7 counterexample: in `ownershipScenario` the account of client 1
exists, the record keyed by tx 2 exists and is owned by client 2 ≠ 1,
yet `Dispute(1, 2)` fails with `ClientAccountLocked`, not with
`OriginTxNotFound` as the claim states: the lock check runs first. -/
theorem ownership_check_counterexample :
    (mapLookup ownershipScenario.accounts 1).isSome = true ∧
    (mapLookup ownershipScenario.deposit_states 2).map DepositState.client_id =
      some 2 ∧
    (Dispute.execute_tx ⟨1, 2⟩ ownershipScenario).1 =
      some TxError.ClientAccountLocked ∧
    TxError.ClientAccountLocked ≠ TxError.OriginTxNotFound := by
  refine ⟨?_, ?_, ?_, by simp⟩ <;>
    simp [ownershipScenario, Ledger.replay, Ledger.execute,
      Deposit.execute_tx, Dispute.execute_tx, Chargeback.execute_tx,
      Ledger.new, SubAccount.new, UserAccount.new, make_tx, mapLookup,
      mapInsert, DepositState.new]

/-- C7 amended: a Dispute, Resolve or Chargeback naming `(c, t)` fails
with `OriginTxNotFound` whenever the account of `c` exists and is
unlocked and either no record is keyed by `t` or the record keyed by `t`
is owned by a different client. -/
theorem ownership_check (l : Ledger) (c t : Nat) (acc : UserAccount)
    (hacc : mapLookup l.accounts c = some acc) (hlk : acc.locked = false)
    (hdep : ∀ dep, mapLookup l.deposit_states t = some dep →
      dep.client_id ≠ c) :
    Dispute.execute_tx ⟨c, t⟩ l = (some TxError.OriginTxNotFound, l) ∧
    Resolve.execute_tx ⟨c, t⟩ l = (some TxError.OriginTxNotFound, l) ∧
    Chargeback.execute_tx ⟨c, t⟩ l = (some TxError.OriginTxNotFound, l) := by
  cases hd : mapLookup l.deposit_states t with
  | none =>
      refine ⟨?_, ?_, ?_⟩ <;>
        simp [Dispute.execute_tx, Resolve.execute_tx, Chargeback.execute_tx,
          hacc, hlk, hd]
  | some dep =>
      have hne := hdep dep hd
      refine ⟨?_, ?_, ?_⟩ <;>
        simp [Dispute.execute_tx, Resolve.execute_tx, Chargeback.execute_tx,
          hacc, hlk, hd, hne]

/-- C7 witness: in `mismatchScenario`, `Dispute(1, 2)` names a record
owned by client 2 while client 1's unlocked account exists, and fails
with `OriginTxNotFound`. -/
theorem ownership_check_witness :
    Dispute.execute_tx ⟨1, 2⟩ mismatchScenario =
      (some TxError.OriginTxNotFound, mismatchScenario) :=
  (ownership_check mismatchScenario 1 2 ⟨1, ⟨50⟩, ⟨0⟩, false⟩
    (by
      simp [mismatchScenario, Ledger.replay, Ledger.execute,
        Deposit.execute_tx, Ledger.new, SubAccount.new, UserAccount.new,
        make_tx, mapLookup, mapInsert]) rfl
    (by
      intro dep h
      simp [mismatchScenario, Ledger.replay, Ledger.execute,
        Deposit.execute_tx, Ledger.new, SubAccount.new, UserAccount.new,
        make_tx, mapLookup, mapInsert, DepositState.new] at h
      cases h
      simp)).1

/-- C2: the recorded divergence at a concrete reachable state.  In
`chargebackScenario` the record for tx 1 is `ChargedBack`; a later
`Dispute(1, 1)` fails with `ClientAccountLocked` — not with
`TxAlreadyDisputed` as the claim (and the repository's own
`ops_after_chargeback` test) expects, because the lock check precedes
the record-state check — and after a duplicate `Deposit(2, 1, 30)`
overwrites the record, a `Dispute(2, 1)` on the charged-back tx even
succeeds. -/
theorem chargeback_terminal_divergence :
    (mapLookup chargebackScenario.deposit_states 1).map DepositState.state =
      some TxState.ChargedBack ∧
    (chargebackScenario.execute (Transaction.Dispute ⟨1, 1⟩)).1 =
      some TxError.ClientAccountLocked ∧
    ((chargebackScenario.execute (Transaction.Deposit ⟨2, 1, 30⟩)).2.execute
        (Transaction.Dispute ⟨2, 1⟩)).1 = none := by
  refine ⟨?_, ?_, ?_⟩ <;>
    simp [chargebackScenario, Ledger.replay, Ledger.execute,
      Deposit.execute_tx, Dispute.execute_tx, Chargeback.execute_tx,
      Ledger.new, SubAccount.new, UserAccount.new, make_tx, mapLookup,
      mapInsert, DepositState.new]

end PaymentsEngine
